import Mathlib

/-!
# Verification of the YC2Data extractor

Shallow embedding of the YC2Data TypeScript extractor (`YCDataExtractor` and
the zod configuration schema) and proofs about it.

Network interactions are modelled by oracle functions passed as parameters
(`discover` for the Algolia discovery endpoint, `fetch` for the batch
company-fetch endpoint) and by an event trace recording, in order, every
discovery call, delay, login and fetch-batch call the orchestrator performs.
-/

namespace YC2Data

/-! ## Data model (from the TypeScript interfaces)

Optional TypeScript fields (`field?: T`) are modelled as `Option T`:
`none` is "absent in source" (JS `undefined`/missing), which is distinct
from an empty string or empty list.  The fields `Company.name`,
`Company.jobs` and `Job.title` are declared required in the TypeScript
interfaces, but the code defends against their absence at runtime
(`company.name || ""`, `company.jobs || []`, `job.title || ""`), so they
are modelled as `Option` too in order to express that runtime behaviour. -/

/-- `interface Job` from the source (fields relevant to the extractor). -/
structure Job where
  id : Nat
  title : Option String
  department : Option String
  location : Option String
  pretty_min_experience : Option String
  pretty_job_type : Option String
  pretty_role : Option String
  pretty_salary_range : Option String
  deriving Repr, DecidableEq

/-- The founder sub-record of `interface Company`. -/
structure Founder where
  full_name : Option String
  linkedin : Option String
  founder_bio : Option String
  deriving Repr, DecidableEq

/-- `interface Company` from the source. -/
structure Company where
  id : Nat
  name : Option String
  website : Option String
  description : Option String
  jobs : Option (List Job)
  team_size : Option Int
  founders : Option (List Founder)
  primary_vertical : Option String
  website_display : Option String
  country : Option String
  deriving Repr, DecidableEq

/-- Job entry of `interface OutputCompany`. -/
structure OutputJob where
  name : String
  pretty_min_experience : Option String
  pretty_job_type : Option String
  pretty_role : Option String
  pretty_salary_range : Option String
  deriving Repr, DecidableEq

/-- `interface OutputCompany` from the source.  The constructed value always
carries a concrete `founders` array and a concrete `jobs` array
(`company.founders || []`, `(company.jobs || []).map ...`), so these two
fields are plain lists here. -/
structure OutputCompany where
  name : String
  website : String
  team_size : Option Int
  founders : List Founder
  primary_vertical : Option String
  website_display : Option String
  country : Option String
  jobs : List OutputJob
  deriving Repr, DecidableEq

/-- The session established by `login`: `this.session = { cookies, csrfToken }`. -/
structure Session where
  cookies : String
  csrfToken : String
  deriving Repr, DecidableEq

/-! ## Formatter (`formatCompanyData`)

Source:
```
private formatCompanyData(companies: Company[]): OutputCompany[] {
  return companies.map(company => ({
    name: company.name || "",
    website: company.website || "",
    team_size: company.team_size,
    founders: company.founders || [],
    primary_vertical: company.primary_vertical,
    website_display: company.website_display,
    country: company.country,
    jobs: (company.jobs || []).map(job => ({
      name: job.title || "",
      ...four pretty_* fields passed through...
    }))
  }));
}
```
For a string-or-undefined value `x`, the JS expression `x || ""` equals
`x.getD ""` (when `x = some s` with `s` non-empty it is `s`; when
`x = some ""` both sides are `""`; when `x = none` it is `""`).  Likewise
`company.jobs || []` is `jobs.getD []` because a present JS array — even an
empty one — is truthy. -/

/-- The per-job arrow of `formatCompanyData`'s inner `.map`. -/
def formatJob (job : Job) : OutputJob :=
  { name := job.title.getD ""
    pretty_min_experience := job.pretty_min_experience
    pretty_job_type := job.pretty_job_type
    pretty_role := job.pretty_role
    pretty_salary_range := job.pretty_salary_range }

/-- The per-company arrow of `formatCompanyData`'s `.map`. -/
def formatCompany (company : Company) : OutputCompany :=
  { name := company.name.getD ""
    website := company.website.getD ""
    team_size := company.team_size
    founders := company.founders.getD []
    primary_vertical := company.primary_vertical
    website_display := company.website_display
    country := company.country
    jobs := (company.jobs.getD []).map formatJob }

/-- `YCDataExtractor.formatCompanyData`. -/
def formatCompanyData (companies : List Company) : List OutputCompany :=
  companies.map formatCompany

/-! ## Event traces

A run of the orchestrator is described by the ordered list of externally
visible actions it performs: discovery calls (`fetchCompanyIds` with a page
number and a `hitsPerPage`), `setTimeout` delays, the login flow, and
batch-fetch calls (`fetchCompanyDetails`'s POST with a list of ids). -/

/-- One externally visible action of the extractor. -/
inductive Event where
  | discoveryCall (page : Nat) (hitsPerPage : Nat)
  | delayMs (ms : Nat)
  | loginCall
  | fetchCall (ids : List Nat)
  deriving Repr, DecidableEq

/-- The `(page, hitsPerPage)` arguments of the discovery calls of a trace,
in order. -/
def discoveryCalls (tr : List Event) : List (Nat × Nat) :=
  tr.filterMap fun e => match e with
    | Event.discoveryCall page hitsPerPage => some (page, hitsPerPage)
    | _ => none

/-- The id batches of the fetch calls of a trace, in order. -/
def fetchCalls (tr : List Event) : List (List Nat) :=
  tr.filterMap fun e => match e with
    | Event.fetchCall ids => some ids
    | _ => none

/-- Whether an event is the login flow. -/
def isLogin : Event → Bool
  | Event.loginCall => true
  | _ => false

/-! ## Record Fetcher (`fetchCompanyDetails`)

`fetchCompanyDetails` first runs `if (!this.session) await this.login();`,
then POSTs the id list.  The network is abstracted by the oracle
`fetch : List Nat → List Company` (the `companies` array of the response,
`|| []` already applied) and the session that `login()` would install by
the parameter `loginResult`.  It returns the fetched companies, the session
after the call, and the events performed. -/

/-- `YCDataExtractor.fetchCompanyDetails` (one call). -/
def fetchCompanyDetails (fetch : List Nat → List Company) (loginResult : Session)
    (session : Option Session) (companyIds : List Nat) :
    List Company × Session × List Event :=
  match session with
  | none => (fetch companyIds, loginResult, [Event.loginCall, Event.fetchCall companyIds])
  | some s => (fetch companyIds, s, [Event.fetchCall companyIds])

/-! ## Orchestrator (`extractData`)

Source:
```
const hitsPerPage = Math.min(maxCompanies, 100);
const numPages = Math.ceil(maxCompanies / hitsPerPage);
let allCompanyIds: number[] = [];
for (let page = 0; page < numPages && allCompanyIds.length < maxCompanies; page++) {
  const companyIds = await this.fetchCompanyIds(page, hitsPerPage);
  allCompanyIds = [...allCompanyIds, ...companyIds];
  if (page < numPages - 1) { await delay(1000); }
}
allCompanyIds = allCompanyIds.slice(0, maxCompanies);
if (allCompanyIds.length === 0) { return []; }
const batchSize = 20;
let allCompanies: Company[] = [];
for (let i = 0; i < allCompanyIds.length; i += batchSize) {
  const batch = allCompanyIds.slice(i, i + batchSize);
  const companies = await this.fetchCompanyDetails(batch);
  allCompanies = [...allCompanies, ...companies];
  if (i + batchSize < allCompanyIds.length) { await delay(2000); }
}
return this.formatCompanyData(allCompanies);
```
-/

/-- The discovery `for` loop of `extractData`.  The loop variable `page`
runs over `List.range numPages` (JS: `page = 0; page < numPages; page++`);
the second loop condition `allCompanyIds.length < maxCompanies` is the
`if` guard, exiting (returning the accumulator) when it fails.  The result
pairs the accumulated id list with the events performed. -/
def discoveryLoop (discover : Nat → Nat → List Nat) (maxCompanies hitsPerPage numPages : Nat) :
    List Nat → List Nat → List Nat × List Event
  | [], acc => (acc, [])
  | page :: restPages, acc =>
    if acc.length < maxCompanies then
      let companyIds := discover page hitsPerPage
      let rest :=
        discoveryLoop discover maxCompanies hitsPerPage numPages restPages (acc ++ companyIds)
      (rest.1,
        Event.discoveryCall page hitsPerPage ::
          ((if page < numPages - 1 then [Event.delayMs 1000] else []) ++ rest.2))
    else (acc, [])

/-- Result of the batched fetch loop: the accumulated companies, the
session after the loop, and the events performed. -/
structure FetchLoopResult where
  companies : List Company
  session : Option Session
  events : List Event
  deriving Repr

/-- The batched fetch `for` loop of `extractData`
(JS: `i = 0; i < allCompanyIds.length; i += 20`, with
`batch = allCompanyIds.slice(i, i + 20)`). -/
def fetchLoop (fetch : List Nat → List Company) (loginResult : Session)
    (allCompanyIds : List Nat) (i : Nat) (session : Option Session) (acc : List Company) :
    FetchLoopResult :=
  if h : i < allCompanyIds.length then
    let batch := (allCompanyIds.drop i).take 20
    let step := fetchCompanyDetails fetch loginResult session batch
    let rest := fetchLoop fetch loginResult allCompanyIds (i + 20) (some step.2.1) (acc ++ step.1)
    { companies := rest.companies, session := rest.session,
      events := step.2.2
        ++ (if i + 20 < allCompanyIds.length then [Event.delayMs 2000] else [])
        ++ rest.events }
  else { companies := acc, session := session, events := [] }
termination_by allCompanyIds.length - i

/-- `YCDataExtractor.extractData`.  `Math.min` becomes `min`, and
`Math.ceil(maxCompanies / hitsPerPage)` becomes `(maxCompanies + hitsPerPage - 1) / hitsPerPage`
(ceiling division on naturals).  When `maxCompanies = 0`, the JS expression is
`Math.ceil(0 / 0) = NaN` and the loop condition `page < NaN` is false, so the
loop body never runs; this is modelled by `numPages = 0` (the loop over
`List.range 0` never runs), the same observable behaviour. -/
def extractData (discover : Nat → Nat → List Nat) (fetch : List Nat → List Company)
    (loginResult : Session) (maxCompanies : Nat) : List OutputCompany × List Event :=
  let hitsPerPage := min maxCompanies 100
  let numPages := if hitsPerPage = 0 then 0 else (maxCompanies + hitsPerPage - 1) / hitsPerPage
  let disc := discoveryLoop discover maxCompanies hitsPerPage numPages (List.range numPages) []
  let allCompanyIds := disc.1.take maxCompanies
  if allCompanyIds.length = 0 then ([], disc.2)
  else
    let fetched := fetchLoop fetch loginResult allCompanyIds 0 none []
    (formatCompanyData fetched.companies, disc.2 ++ fetched.events)

/-- The partition of an id list into consecutive slices of at most 20
produced by the fetch loop (`allCompanyIds.slice(i, i + 20)` for
`i = 0, 20, 40, ...`), as a list of batches. -/
def chunks20 (l : List Nat) : List (List Nat) :=
  if h : l = [] then [] else l.take 20 :: chunks20 (l.drop 20)
termination_by l.length
decreasing_by
  simp only [List.length_drop]
  have : 0 < l.length := List.length_pos.mpr h
  omega

/-! ## Configuration provider (`src/config.ts`)

```
export const configSchema = z.object({
  YC_USERNAME: z.string(),
  YC_PASSWORD: z.string(),
  ALGOLIA_APP_ID: z.string(),
  ALGOLIA_API_KEY: z.string(),
});
export const config = configSchema.parse(process.env);
```
Each entry of `process.env` is either a string or absent (`Option String`).
`z.string()` succeeds on every string — including the empty string — and
fails on `undefined`, so `configSchema.parse` succeeds exactly when all
four keys are present. -/

/-- The environment as seen by `configSchema.parse`: each of the four keys
is a string or absent. -/
structure Env where
  YC_USERNAME : Option String
  YC_PASSWORD : Option String
  ALGOLIA_APP_ID : Option String
  ALGOLIA_API_KEY : Option String
  deriving Repr, DecidableEq

/-- The parsed configuration object. -/
structure Config where
  YC_USERNAME : String
  YC_PASSWORD : String
  ALGOLIA_APP_ID : String
  ALGOLIA_API_KEY : String
  deriving Repr, DecidableEq

/-- `configSchema.parse` on `process.env` (`none` = a thrown `ZodError`,
i.e. startup failure). -/
def configSchemaParse (env : Env) : Option Config :=
  match env.YC_USERNAME, env.YC_PASSWORD, env.ALGOLIA_APP_ID, env.ALGOLIA_API_KEY with
  | some u, some p, some a, some k =>
    some { YC_USERNAME := u, YC_PASSWORD := p, ALGOLIA_APP_ID := a, ALGOLIA_API_KEY := k }
  | _, _, _, _ => none

/-! ## Session Authenticator (`login`)

The CSRF token is extracted from an HTML body with
`body.match(/name="csrf-token" content="([^"]+)"/)`.
JS `String.match` with a non-global regex returns the match at the leftmost
starting position where the whole pattern matches, or `null`.  At a given
position the pattern matches iff the literal `name="csrf-token" content="`
occurs there, followed by at least one non-quote character (`[^"]+` — the
capture group, which greedily takes the maximal run of non-quote
characters) and then a `"`. -/

/-- Whether `pat` occurs at the start of `s`. -/
def startsWith : List Char → List Char → Bool
  | [], _ => true
  | _ :: _, [] => false
  | p :: ps, c :: cs => p = c && startsWith ps cs

/-- The literal part of the CSRF regex: `name="csrf-token" content="`. -/
def csrfLiteral : List Char := "name=\"csrf-token\" content=\"".data

/-- Attempt the `([^"]+)"` part of the regex at the start of `s`: the
capture is the maximal non-quote run; the match succeeds iff that run is
non-empty and a character (necessarily `"`) follows it. -/
def csrfCapture (s : List Char) : Option (List Char) :=
  let cap := s.takeWhile (fun c => c ≠ '"')
  if cap = [] then none
  else if cap.length < s.length then some cap else none

/-- `body.match(/name="csrf-token" content="([^"]+)"/)`: scan left to right
for the first position where the whole pattern matches, returning the
capture group. -/
def findCsrf : List Char → Option (List Char)
  | [] => none
  | c :: cs =>
    if startsWith csrfLiteral (c :: cs) then
      match csrfCapture ((c :: cs).drop csrfLiteral.length) with
      | some cap => some cap
      | none => findCsrf cs
    else findCsrf cs

/-- AuthError taxonomy of the login flow.  `missingCsrfToken` is the thrown
`"Failed to extract CSRF token from login page"` (the spec's
`AuthError("missing csrf token")`); `loginRejected` is the axios failure
when `validateStatus` (`status < 400 || status === 302`) rejects the
sign-in response (the spec's `AuthError("login rejected")`). -/
inductive AuthError where
  | missingCsrfToken
  | loginRejected
  deriving Repr, DecidableEq

/-- The three network round-trips of `login`, in order. -/
inductive LoginEvent where
  | getLoginPage
  | postSignIn
  | getCompaniesPage
  deriving Repr, DecidableEq

/-- The network responses a run of `login` observes:
body and `Set-Cookie` values of the login page GET, status and
`Set-Cookie` values of the sign-in POST, body and `Set-Cookie` values of
the `workatastartup.com/companies` GET. -/
structure LoginEnv where
  loginPageBody : String
  loginPageCookies : List String
  signInStatus : Nat
  signInCookies : List String
  waasBody : String
  waasCookies : List String

/-- `cookie.split(';')[0]`: the part of a `Set-Cookie` value before the
first `;` (the whole string when there is none). -/
def cookieHead (cookie : String) : String :=
  String.mk (cookie.data.takeWhile (fun c => c ≠ ';'))

/-- `cookies.map(c => c.split(';')[0]).join('; ')`. -/
def joinCookies (cookies : List String) : String :=
  String.intercalate "; " (cookies.map cookieHead)

/-- `YCDataExtractor.login`, abstracted over the observed network
responses.  Returns the established session (or the error aborting the
flow) together with the network round-trips performed, in order. -/
def login (env : LoginEnv) : Except AuthError Session × List LoginEvent :=
  match findCsrf env.loginPageBody.data with
  | none => (Except.error AuthError.missingCsrfToken, [LoginEvent.getLoginPage])
  | some _csrfToken =>
    if env.signInStatus < 400 ∨ env.signInStatus = 302 then
      let allCookies := env.loginPageCookies ++ env.signInCookies
      let waasCsrfToken := ((findCsrf env.waasBody.data).map String.mk).getD ""
      let finalCookies := joinCookies (allCookies ++ env.waasCookies)
      (Except.ok { cookies := finalCookies, csrfToken := waasCsrfToken },
        [LoginEvent.getLoginPage, LoginEvent.postSignIn, LoginEvent.getCompaniesPage])
    else
      (Except.error AuthError.loginRejected, [LoginEvent.getLoginPage, LoginEvent.postSignIn])

/-! ## Loop unfolding helpers and trace projections -/

theorem fetchLoop_stop (fetch : List Nat → List Company) (lr : Session)
    (ids : List Nat) (i : Nat) (s : Option Session) (acc : List Company)
    (h : ¬ i < ids.length) :
    fetchLoop fetch lr ids i s acc = { companies := acc, session := s, events := [] } := by
  rw [fetchLoop.eq_def, dif_neg h]

theorem fetchLoop_step (fetch : List Nat → List Company) (lr : Session)
    (ids : List Nat) (i : Nat) (s : Option Session) (acc : List Company)
    (h : i < ids.length) :
    fetchLoop fetch lr ids i s acc =
      (let step := fetchCompanyDetails fetch lr s ((ids.drop i).take 20)
       let rest := fetchLoop fetch lr ids (i + 20) (some step.2.1) (acc ++ step.1)
       { companies := rest.companies, session := rest.session,
         events := step.2.2
           ++ (if i + 20 < ids.length then [Event.delayMs 2000] else [])
           ++ rest.events }) := by
  rw [fetchLoop.eq_def, dif_pos h]

theorem fetchCalls_nil : fetchCalls [] = [] := rfl

theorem fetchCalls_append (a b : List Event) :
    fetchCalls (a ++ b) = fetchCalls a ++ fetchCalls b :=
  List.filterMap_append a b _

theorem fetchCalls_cons_login (tr : List Event) :
    fetchCalls (Event.loginCall :: tr) = fetchCalls tr := rfl

theorem fetchCalls_cons_delay (ms : Nat) (tr : List Event) :
    fetchCalls (Event.delayMs ms :: tr) = fetchCalls tr := rfl

theorem fetchCalls_cons_discovery (p hp : Nat) (tr : List Event) :
    fetchCalls (Event.discoveryCall p hp :: tr) = fetchCalls tr := rfl

theorem fetchCalls_cons_fetch (ids : List Nat) (tr : List Event) :
    fetchCalls (Event.fetchCall ids :: tr) = ids :: fetchCalls tr := rfl

theorem discoveryCalls_nil : discoveryCalls [] = [] := rfl

theorem discoveryCalls_append (a b : List Event) :
    discoveryCalls (a ++ b) = discoveryCalls a ++ discoveryCalls b :=
  List.filterMap_append a b _

theorem discoveryCalls_cons_login (tr : List Event) :
    discoveryCalls (Event.loginCall :: tr) = discoveryCalls tr := rfl

theorem discoveryCalls_cons_delay (ms : Nat) (tr : List Event) :
    discoveryCalls (Event.delayMs ms :: tr) = discoveryCalls tr := rfl

theorem discoveryCalls_cons_discovery (p hp : Nat) (tr : List Event) :
    discoveryCalls (Event.discoveryCall p hp :: tr) = (p, hp) :: discoveryCalls tr := rfl

theorem discoveryCalls_cons_fetch (ids : List Nat) (tr : List Event) :
    discoveryCalls (Event.fetchCall ids :: tr) = discoveryCalls tr := rfl

theorem chunks20_nil : chunks20 [] = [] := by
  rw [chunks20.eq_def]
  simp

theorem chunks20_cons (l : List Nat) (h : l ≠ []) :
    chunks20 l = l.take 20 :: chunks20 (l.drop 20) := by
  rw [chunks20.eq_def]
  simp [h]

/-- The batches of `chunks20` concatenate back to the original list:
no gaps, no overlaps, order preserved. -/
theorem chunks20_flatten (l : List Nat) : (chunks20 l).flatten = l := by
  by_cases h : l = []
  · subst h
    rw [chunks20_nil]
    rfl
  · rw [chunks20_cons l h, List.flatten_cons, chunks20_flatten (l.drop 20)]
    exact List.take_append_drop 20 l
termination_by l.length
decreasing_by
  simp only [List.length_drop]
  have : 0 < l.length := List.length_pos.mpr h
  omega

/-- Every batch of `chunks20` is non-empty and has at most 20 elements. -/
theorem chunks20_batch_size (l : List Nat) :
    ∀ b ∈ chunks20 l, b ≠ [] ∧ b.length ≤ 20 := by
  by_cases h : l = []
  · subst h
    rw [chunks20_nil]
    intro b hb
    simp at hb
  · rw [chunks20_cons l h]
    intro b hb
    rcases List.mem_cons.mp hb with rfl | hb'
    · refine ⟨fun hcontra => ?_, by simp [List.length_take]⟩
      rcases List.take_eq_nil_iff.mp hcontra with h20 | hnil
      · omega
      · exact h hnil
    · exact chunks20_batch_size (l.drop 20) b hb'
termination_by l.length
decreasing_by
  simp only [List.length_drop]
  have : 0 < l.length := List.length_pos.mpr h
  omega

/-- The batch sizes of `chunks20` as a function of the input length alone. -/
def chunkLengths (n : Nat) : List Nat :=
  if n = 0 then [] else min 20 n :: chunkLengths (n - 20)
termination_by n
decreasing_by omega

theorem chunks20_map_length (l : List Nat) :
    (chunks20 l).map List.length = chunkLengths l.length := by
  by_cases h : l = []
  · subst h
    rw [chunks20_nil, chunkLengths]
    rfl
  · have hl : 0 < l.length := List.length_pos.mpr h
    rw [chunks20_cons l h, chunkLengths, if_neg (by omega), List.map_cons,
      chunks20_map_length (l.drop 20)]
    simp [List.length_take, List.length_drop]
termination_by l.length
decreasing_by
  simp only [List.length_drop]
  omega

theorem chunkLengths_45 : chunkLengths 45 = [20, 20, 5] := by
  rw [chunkLengths.eq_def]
  norm_num
  rw [chunkLengths.eq_def]
  norm_num
  rw [chunkLengths.eq_def]
  norm_num
  rw [chunkLengths.eq_def]
  norm_num

/-- The id batches the fetch loop POSTs are exactly the consecutive
20-slices of the remaining id list. -/
theorem fetchCalls_fetchLoop (fetch : List Nat → List Company) (lr : Session) (ids : List Nat) :
    ∀ (i : Nat) (s : Option Session) (acc : List Company),
      fetchCalls (fetchLoop fetch lr ids i s acc).events = chunks20 (ids.drop i) := by
  intro i s acc
  by_cases h : i < ids.length
  · rw [fetchLoop_step fetch lr ids i s acc h]
    have hdrop : ids.drop i ≠ [] := by
      intro hnil
      rw [List.drop_eq_nil_iff] at hnil
      omega
    rw [chunks20_cons _ hdrop, List.drop_drop]
    have hrec := fetchCalls_fetchLoop fetch lr ids (i + 20)
    cases s <;>
      simp only [fetchCompanyDetails, fetchCalls_append, fetchCalls_cons_login,
        fetchCalls_cons_fetch, fetchCalls_nil, hrec] <;>
      split <;>
      simp [fetchCalls_cons_delay, fetchCalls_nil]
  · rw [fetchLoop_stop fetch lr ids i s acc h]
    have : ids.drop i = [] := List.drop_eq_nil_iff.mpr (by omega)
    rw [this, chunks20_nil]
    rfl
termination_by i => ids.length - i
decreasing_by all_goals omega

/-! ## Theorems -/

/-- Claim C1: For `targetCount = 0`, `extractData` returns an empty output
list and an empty event trace: no discovery call, no login and no fetch
call is performed (the `Math.ceil(0/0)` step makes the discovery loop run
zero times and the empty id list returns immediately). -/
theorem extractData_targetCount_zero (discover : Nat → Nat → List Nat)
    (fetch : List Nat → List Company) (loginResult : Session) :
    extractData discover fetch loginResult 0 = ([], []) := rfl

/-- Claim C2: The formatter yields exactly one output record per fetched
record, at the same position (hence preserving the relative order of the
fetched records), and each output record's job list is the element-wise
image of the jobs present on its source record: same length, same order,
no filtering. -/
theorem formatCompanyData_one_to_one_order_preserving (companies : List Company) :
    (formatCompanyData companies).length = companies.length
    ∧ (∀ i : Nat, (formatCompanyData companies)[i]? = (companies[i]?).map formatCompany)
    ∧ ∀ company : Company,
        (formatCompany company).jobs.length = (company.jobs.getD []).length
        ∧ ∀ j : Nat,
            ((formatCompany company).jobs)[j]? = ((company.jobs.getD [])[j]?).map formatJob := by
  refine ⟨by simp [formatCompanyData], fun i => ?_, fun company => ⟨?_, fun j => ?_⟩⟩
  · simp [formatCompanyData]
  · simp [formatCompany]
  · simp [formatCompany]

/-- Claim C10: A record whose `jobs` field is absent (`none`, i.e. JS
`undefined`/`null`) is formatted — totally, with no failure — to an output
record with an empty job list, thanks to the `company.jobs || []` default. -/
theorem formatCompany_jobs_absent (company : Company) (h : company.jobs = none) :
    (formatCompany company).jobs = [] := by
  simp [formatCompany, h]

/-- Witness for `formatCompany_jobs_absent` at a concrete record. -/
theorem formatCompany_jobs_absent_witness :
    (formatCompany
        { id := 1, name := some "Acme", website := none, description := none, jobs := none,
          team_size := none, founders := none, primary_vertical := none,
          website_display := none, country := none }).jobs = [] :=
  formatCompany_jobs_absent
    { id := 1, name := some "Acme", website := none, description := none, jobs := none,
      team_size := none, founders := none, primary_vertical := none,
      website_display := none, country := none } rfl

/-- Claim C8, counterexample: The claim "startup fails whenever any of the
four is absent or empty" is false: an environment in which all four
variables are present but empty parses successfully (`z.string()` accepts
the empty string). -/
theorem configSchemaParse_accepts_empty :
    configSchemaParse
        { YC_USERNAME := some "", YC_PASSWORD := some "",
          ALGOLIA_APP_ID := some "", ALGOLIA_API_KEY := some "" }
      = some { YC_USERNAME := "", YC_PASSWORD := "",
               ALGOLIA_APP_ID := "", ALGOLIA_API_KEY := "" } := rfl

/-- Claim C8, amended: The configuration provider validates that
`YC_USERNAME`, `YC_PASSWORD`, `ALGOLIA_APP_ID` and `ALGOLIA_API_KEY` are
all present as strings: startup succeeds exactly when all four are
present, and fails whenever any of them is absent (empty strings are
accepted). -/
theorem configSchemaParse_isSome_iff (env : Env) :
    (configSchemaParse env).isSome
      ↔ env.YC_USERNAME.isSome ∧ env.YC_PASSWORD.isSome
          ∧ env.ALGOLIA_APP_ID.isSome ∧ env.ALGOLIA_API_KEY.isSome := by
  cases hu : env.YC_USERNAME <;> cases hp : env.YC_PASSWORD
    <;> cases ha : env.ALGOLIA_APP_ID <;> cases hk : env.ALGOLIA_API_KEY
    <;> simp [configSchemaParse, hu, hp, ha, hk]

/-- Claim C6: If the login-page body contains no CSRF token matching the
pattern `name="csrf-token" content="([^"]+)"`, then `login` fails with the
missing-CSRF-token `AuthError` and the sign-in POST is never performed. -/
theorem login_missing_csrf (env : LoginEnv)
    (h : findCsrf env.loginPageBody.data = none) :
    (login env).1 = Except.error AuthError.missingCsrfToken
    ∧ LoginEvent.postSignIn ∉ (login env).2 := by
  simp [login, h]

/-- Claim C3: For a non-empty identifier list, the fetch loop of the
orchestrator partitions it into consecutive batches of at most 20
identifiers whose concatenation equals the original list (no gaps, no
overlaps, order preserved), invoking the Fetcher once per batch in order;
45 identifiers yield batches of sizes `[20, 20, 5]`. -/
theorem fetchLoop_batches_partition (fetch : List Nat → List Company) (lr : Session)
    (ids : List Nat) (hne : ids ≠ []) :
    (fetchCalls (fetchLoop fetch lr ids 0 none []).events).flatten = ids
    ∧ (∀ b ∈ fetchCalls (fetchLoop fetch lr ids 0 none []).events, b ≠ [] ∧ b.length ≤ 20)
    ∧ (ids.length = 45 →
        (fetchCalls (fetchLoop fetch lr ids 0 none []).events).map List.length
          = [20, 20, 5]) := by
  have hcalls := fetchCalls_fetchLoop fetch lr ids 0 none []
  rw [List.drop_zero] at hcalls
  rw [hcalls]
  refine ⟨chunks20_flatten ids, chunks20_batch_size ids, fun h45 => ?_⟩
  rw [chunks20_map_length, h45, chunkLengths_45]

/-- Witness for `fetchLoop_batches_partition`: 45 concrete identifiers are
fetched in batches of sizes `[20, 20, 5]`. -/
theorem fetchLoop_batches_partition_witness :
    (fetchCalls (fetchLoop (fun _ => []) { cookies := "", csrfToken := "" }
        (List.range 45) 0 none []).events).map List.length = [20, 20, 5] :=
  (fetchLoop_batches_partition (fun _ => []) { cookies := "", csrfToken := "" }
      (List.range 45) (by simp)).2.2 (by simp)

/-- Every event emitted by the discovery loop is a discovery call with the
loop's `hitsPerPage` or a 1000 ms delay. -/
theorem discoveryLoop_events_shape (d : Nat → Nat → List Nat) (mc hp np : Nat) :
    ∀ (pages acc : List Nat) (e : Event),
      e ∈ (discoveryLoop d mc hp np pages acc).2 →
      (∃ p, e = Event.discoveryCall p hp) ∨ e = Event.delayMs 1000 := by
  intro pages
  induction pages with
  | nil =>
    intro acc e he
    simp [discoveryLoop] at he
  | cons page rest ih =>
    intro acc e he
    by_cases hc : acc.length < mc
    · simp only [discoveryLoop, if_pos hc, List.mem_cons, List.mem_append] at he
      rcases he with rfl | he | he
      · exact Or.inl ⟨page, rfl⟩
      · by_cases hd : page < np - 1
        · rw [if_pos hd] at he
          simp at he
          exact Or.inr he
        · rw [if_neg hd] at he
          simp at he
      · exact ih _ e he
    · simp [discoveryLoop, if_neg hc] at he

/-- Every event emitted by the fetch loop is a login, a 2000 ms delay or a
fetch call. -/
theorem fetchLoop_events_shape (fetch : List Nat → List Company) (lr : Session)
    (ids : List Nat) :
    ∀ (i : Nat) (s : Option Session) (acc : List Company) (e : Event),
      e ∈ (fetchLoop fetch lr ids i s acc).events →
      e = Event.loginCall ∨ e = Event.delayMs 2000 ∨ ∃ b, e = Event.fetchCall b := by
  intro i s acc e he
  by_cases h : i < ids.length
  · rw [fetchLoop_step fetch lr ids i s acc h] at he
    simp only [List.mem_append] at he
    rcases he with (he | he) | he
    · cases s <;> simp [fetchCompanyDetails] at he <;> tauto
    · by_cases hd : i + 20 < ids.length
      · rw [if_pos hd] at he
        simp at he
        tauto
      · rw [if_neg hd] at he
        simp at he
    · exact fetchLoop_events_shape fetch lr ids (i + 20) _ _ e he
  · rw [fetchLoop_stop fetch lr ids i s acc h] at he
    simp at he
termination_by i => ids.length - i
decreasing_by omega

/-- The discovery loop performs no fetch call. -/
theorem fetchCalls_discoveryLoop (d : Nat → Nat → List Nat) (mc hp np : Nat)
    (pages acc : List Nat) :
    fetchCalls (discoveryLoop d mc hp np pages acc).2 = [] := by
  rw [fetchCalls, List.filterMap_eq_nil_iff]
  intro e he
  rcases discoveryLoop_events_shape d mc hp np pages acc e he with ⟨p, rfl⟩ | rfl <;> rfl

/-- The discovery loop performs no login. -/
theorem discoveryLoop_no_login (d : Nat → Nat → List Nat) (mc hp np : Nat)
    (pages acc : List Nat) :
    ∀ e ∈ (discoveryLoop d mc hp np pages acc).2, isLogin e = false := by
  intro e he
  rcases discoveryLoop_events_shape d mc hp np pages acc e he with ⟨p, rfl⟩ | rfl <;> rfl

/-- The fetch loop performs no discovery call. -/
theorem discoveryCalls_fetchLoop (fetch : List Nat → List Company) (lr : Session)
    (ids : List Nat) (i : Nat) (s : Option Session) (acc : List Company) :
    discoveryCalls (fetchLoop fetch lr ids i s acc).events = [] := by
  rw [discoveryCalls, List.filterMap_eq_nil_iff]
  intro e he
  rcases fetchLoop_events_shape fetch lr ids i s acc e he with rfl | rfl | ⟨b, rfl⟩ <;> rfl

/-- Claim C9: Every identifier batch the orchestrator passes to the Fetcher
(over a whole `extractData` run, for any target count and any oracle
responses) is non-empty and has at most 20 identifiers, satisfying the
Fetcher's non-empty-batch precondition. -/
theorem extractData_fetch_precondition (discover : Nat → Nat → List Nat)
    (fetch : List Nat → List Company) (lr : Session) (t : Nat) :
    ∀ b ∈ fetchCalls (extractData discover fetch lr t).2, b ≠ [] ∧ b.length ≤ 20 := by
  intro b hb
  rw [extractData] at hb
  simp only at hb
  set hp := min t 100 with hhp
  set np := if hp = 0 then 0 else (t + hp - 1) / hp with hnp
  set disc := discoveryLoop discover t hp np (List.range np) [] with hdisc
  by_cases hlen : (disc.1.take t).length = 0
  · rw [if_pos hlen] at hb
    rw [fetchCalls_discoveryLoop] at hb
    simp at hb
  · rw [if_neg hlen] at hb
    simp only at hb
    rw [fetchCalls_append, fetchCalls_discoveryLoop, List.nil_append,
      fetchCalls_fetchLoop, List.drop_zero] at hb
    exact chunks20_batch_size _ b hb

/-- Witness for `extractData_fetch_precondition`: a concrete run in which
the single batch `[5, 7]` is passed to the Fetcher. -/
theorem extractData_fetch_precondition_witness :
    ([5, 7] : List Nat) ≠ [] ∧ ([5, 7] : List Nat).length ≤ 20 :=
  extractData_fetch_precondition (fun _ _ => [5, 7]) (fun _ => [])
    { cookies := "", csrfToken := "" } 2 [5, 7]
    (by
      rw [extractData]
      norm_num [discoveryLoop, fetchLoop_step, fetchLoop_stop, fetchCompanyDetails,
        fetchCalls_append, fetchCalls_cons_login, fetchCalls_cons_fetch,
        fetchCalls_cons_discovery, fetchCalls_nil])

/-- Once a session exists, the fetch loop returns it unchanged and never
logs in. -/
theorem fetchLoop_session_preserved (fetch : List Nat → List Company) (lr : Session)
    (ids : List Nat) :
    ∀ (i : Nat) (s : Session) (acc : List Company),
      (fetchLoop fetch lr ids i (some s) acc).session = some s
      ∧ ∀ e ∈ (fetchLoop fetch lr ids i (some s) acc).events, isLogin e = false := by
  intro i s acc
  by_cases h : i < ids.length
  · rw [fetchLoop_step fetch lr ids i (some s) acc h]
    simp only [fetchCompanyDetails]
    have ih := fetchLoop_session_preserved fetch lr ids (i + 20) s
      (acc ++ fetch ((ids.drop i).take 20))
    refine ⟨ih.1, ?_⟩
    intro e he
    simp only [List.mem_append, List.mem_cons, List.not_mem_nil, or_false] at he
    rcases he with (rfl | he) | he
    · rfl
    · by_cases hd : i + 20 < ids.length
      · rw [if_pos hd] at he
        simp at he
        subst he
        rfl
      · rw [if_neg hd] at he
        simp at he
    · exact ih.2 e he
  · rw [fetchLoop_stop fetch lr ids i (some s) acc h]
    exact ⟨rfl, by intro e he; simp at he⟩
termination_by i => ids.length - i
decreasing_by omega

/-- If `a` occurs in neither `A` nor `B`, then the split of `A ++ a :: B`
around an occurrence of `a` is unique. -/
theorem append_cons_eq_unique {α : Type _} (a : α) :
    ∀ (A B pre post : List α), A ++ a :: B = pre ++ a :: post → a ∉ A → a ∉ B →
      pre = A ∧ post = B := by
  intro A
  induction A with
  | nil =>
    intro B pre post h hA hB
    cases pre with
    | nil =>
      simp at h
      exact ⟨rfl, h.symm⟩
    | cons x pre2 =>
      simp at h
      obtain ⟨rfl, h2⟩ := h
      exact absurd (h2 ▸ List.mem_append_right pre2 (List.mem_cons_self a post)) hB
  | cons x A2 ih =>
    intro B pre post h hA hB
    cases pre with
    | nil =>
      simp at h
      obtain ⟨rfl, -⟩ := h
      exact absurd (List.mem_cons_self x A2) hA
    | cons y pre2 =>
      simp at h
      obtain ⟨rfl, h2⟩ := h
      have := ih B pre2 post h2 (fun hm => hA (List.mem_cons_of_mem x hm)) hB
      exact ⟨by rw [this.1], this.2⟩

/-- Claim C5: During one extraction run the session is acquired lazily at the
first Fetcher invocation and at most one login ever occurs: the trace
contains at most one login event; every login event in the trace has no
fetch call before it and is immediately followed by a fetch call (so it
happens exactly at the first Fetcher invocation, not eagerly at startup);
and once the session is set to some value the fetch loop never reassigns
it and never logs in again. -/
theorem extractData_session_discipline (discover : Nat → Nat → List Nat)
    (fetch : List Nat → List Company) (lr : Session) (t : Nat) :
    ((extractData discover fetch lr t).2.countP isLogin ≤ 1)
    ∧ (∀ pre post, (extractData discover fetch lr t).2 = pre ++ Event.loginCall :: post →
        (∀ ids, Event.fetchCall ids ∉ pre)
        ∧ ∃ ids post2, post = Event.fetchCall ids :: post2)
    ∧ (∀ (ids : List Nat) (i : Nat) (s : Session) (acc : List Company),
        (fetchLoop fetch lr ids i (some s) acc).session = some s
        ∧ ∀ e ∈ (fetchLoop fetch lr ids i (some s) acc).events, isLogin e = false) := by
  suffices hmain :
      ((extractData discover fetch lr t).2.countP isLogin ≤ 1)
      ∧ (∀ pre post, (extractData discover fetch lr t).2 = pre ++ Event.loginCall :: post →
          (∀ ids, Event.fetchCall ids ∉ pre)
          ∧ ∃ ids post2, post = Event.fetchCall ids :: post2) by
    exact ⟨hmain.1, hmain.2, fetchLoop_session_preserved fetch lr⟩
  rw [extractData]
  simp only []
  set hp := min t 100 with hhp
  set np := if hp = 0 then 0 else (t + hp - 1) / hp with hnp
  set disc := discoveryLoop discover t hp np (List.range np) [] with hdisc
  have noLoginDisc : ∀ e ∈ disc.2, isLogin e = false :=
    discoveryLoop_no_login discover t hp np (List.range np) []
  by_cases hlen : (disc.1.take t).length = 0
  · rw [if_pos hlen]
    simp only []
    constructor
    · have h0 : disc.2.countP isLogin = 0 := by
        rw [List.countP_eq_zero]
        intro e he
        simp [noLoginDisc e he]
      omega
    · intro pre post h
      have : Event.loginCall ∈ disc.2 := by
        rw [h]
        exact List.mem_append_right pre (List.mem_cons_self _ post)
      have := noLoginDisc _ this
      simp [isLogin] at this
  · rw [if_neg hlen]
    simp only []
    set allIds := disc.1.take t with hall
    have h0 : 0 < allIds.length := by omega
    rw [fetchLoop_step fetch lr allIds 0 none [] h0]
    simp only [fetchCompanyDetails, List.nil_append]
    set batch := (allIds.drop 0).take 20 with hbatch
    set tail := (fetchLoop fetch lr allIds (0 + 20) (some lr) (fetch batch)).events with htail
    have noLoginTail : ∀ e ∈ tail, isLogin e = false :=
      (fetchLoop_session_preserved fetch lr allIds (0 + 20) lr (fetch batch)).2
    set mid := (if 0 + 20 < allIds.length then [Event.delayMs 2000] else []) with hmid
    have hassoc :
        ([Event.loginCall, Event.fetchCall batch] ++ mid ++ tail)
          = Event.loginCall :: (Event.fetchCall batch :: (mid ++ tail)) := by
      simp
    rw [hassoc]
    have noLoginB : ∀ e ∈ Event.fetchCall batch :: (mid ++ tail), isLogin e = false := by
      intro e he
      simp only [List.mem_cons, List.mem_append] at he
      rcases he with rfl | he | he
      · rfl
      · rw [hmid] at he
        by_cases hd : 0 + 20 < allIds.length
        · rw [if_pos hd] at he
          simp at he
          subst he
          rfl
        · rw [if_neg hd] at he
          simp at he
      · exact noLoginTail e he
    constructor
    · rw [List.countP_append, List.countP_cons]
      have hA : disc.2.countP isLogin = 0 := by
        rw [List.countP_eq_zero]
        intro e he
        simp [noLoginDisc e he]
      have hB : (Event.fetchCall batch :: (mid ++ tail)).countP isLogin = 0 := by
        rw [List.countP_eq_zero]
        intro e he
        simp [noLoginB e he]
      rw [hA, hB]
      simp [isLogin]
    · intro pre post h
      have hsplit := append_cons_eq_unique Event.loginCall disc.2
        (Event.fetchCall batch :: (mid ++ tail)) pre post h
        (fun hm => by have := noLoginDisc _ hm; simp [isLogin] at this)
        (fun hm => by have := noLoginB _ hm; simp [isLogin] at this)
      obtain ⟨rfl, rfl⟩ := hsplit
      refine ⟨fun ids hm => ?_, batch, mid ++ tail, rfl⟩
      rcases discoveryLoop_events_shape discover t hp np (List.range np) [] _ hm with
        ⟨p, he⟩ | he <;> simp at he

/-- Witness for `extractData_session_discipline`: a concrete run whose
trace contains exactly one login, placed immediately before the first
fetch call. -/
theorem extractData_session_discipline_witness :
    ((extractData (fun _ _ => [7]) (fun _ => []) { cookies := "", csrfToken := "" } 1).2.countP
        isLogin ≤ 1)
    ∧ ((∃ ids post2,
          ([Event.fetchCall [7]] : List Event) = Event.fetchCall ids :: post2)) :=
  ⟨(extractData_session_discipline (fun _ _ => [7]) (fun _ => [])
      { cookies := "", csrfToken := "" } 1).1,
   ((extractData_session_discipline (fun _ _ => [7]) (fun _ => [])
      { cookies := "", csrfToken := "" } 1).2.1 [Event.discoveryCall 0 1] [Event.fetchCall [7]]
      (by
        rw [extractData]
        norm_num [discoveryLoop, fetchLoop_step, fetchLoop_stop, fetchCompanyDetails])).2⟩

/-- A one-page discovery loop: a single call for page 0, no delay. -/
theorem discoveryLoop_one_page (d : Nat → Nat → List Nat) (mc hp : Nat) (hmc : 0 < mc) :
    discoveryLoop d mc hp 1 [0] [] = (d 0 hp, [Event.discoveryCall 0 hp]) := by
  simp [discoveryLoop, hmc]

theorem discoveryLoop_one_page_ids (d : Nat → Nat → List Nat) (mc hp : Nat) (hmc : 0 < mc) :
    (discoveryLoop d mc hp 1 [0] []).1 = d 0 hp := by
  rw [discoveryLoop_one_page d mc hp hmc]

theorem discoveryLoop_one_page_events (d : Nat → Nat → List Nat) (mc hp : Nat) (hmc : 0 < mc) :
    (discoveryLoop d mc hp 1 [0] []).2 = [Event.discoveryCall 0 hp] := by
  rw [discoveryLoop_one_page d mc hp hmc]

/-- A two-page discovery loop whose first response is short of the target:
calls for pages 0 and 1 with a single delay between them. -/
theorem discoveryLoop_two_pages (d : Nat → Nat → List Nat) (mc hp : Nat)
    (h0 : 0 < mc) (h1 : (d 0 hp).length < mc) :
    discoveryLoop d mc hp 2 [0, 1] [] =
      (d 0 hp ++ d 1 hp,
       [Event.discoveryCall 0 hp, Event.delayMs 1000, Event.discoveryCall 1 hp]) := by
  simp [discoveryLoop, h0, h1]

theorem discoveryLoop_two_pages_ids (d : Nat → Nat → List Nat) (mc hp : Nat)
    (h0 : 0 < mc) (h1 : (d 0 hp).length < mc) :
    (discoveryLoop d mc hp 2 [0, 1] []).1 = d 0 hp ++ d 1 hp := by
  rw [discoveryLoop_two_pages d mc hp h0 h1]

theorem discoveryLoop_two_pages_events (d : Nat → Nat → List Nat) (mc hp : Nat)
    (h0 : 0 < mc) (h1 : (d 0 hp).length < mc) :
    (discoveryLoop d mc hp 2 [0, 1] []).2 =
      [Event.discoveryCall 0 hp, Event.delayMs 1000, Event.discoveryCall 1 hp] := by
  rw [discoveryLoop_two_pages d mc hp h0 h1]

/-- A two-page discovery loop whose first response already reaches the
target stops early — but the `page < numPages - 1` delay guard has
already fired inside page 0's iteration, so the trace ends with a
1000 ms delay after the final (and only) discovery call. -/
theorem discoveryLoop_early_stop (d : Nat → Nat → List Nat) (mc hp : Nat)
    (h0 : 0 < mc) (h1 : ¬ (d 0 hp).length < mc) :
    discoveryLoop d mc hp 2 [0, 1] [] =
      (d 0 hp, [Event.discoveryCall 0 hp, Event.delayMs 1000]) := by
  simp [discoveryLoop, h0, h1]

theorem discoveryLoop_early_stop_ids (d : Nat → Nat → List Nat) (mc hp : Nat)
    (h0 : 0 < mc) (h1 : ¬ (d 0 hp).length < mc) :
    (discoveryLoop d mc hp 2 [0, 1] []).1 = d 0 hp := by
  rw [discoveryLoop_early_stop d mc hp h0 h1]

theorem discoveryLoop_early_stop_events (d : Nat → Nat → List Nat) (mc hp : Nat)
    (h0 : 0 < mc) (h1 : ¬ (d 0 hp).length < mc) :
    (discoveryLoop d mc hp 2 [0, 1] []).2 =
      [Event.discoveryCall 0 hp, Event.delayMs 1000] := by
  rw [discoveryLoop_early_stop d mc hp h0 h1]

/-- Claim C4: For every `targetCount` in `1..100`, `extractData` requests
exactly one discovery page, with `pageSize = targetCount`; for
`targetCount = 150` (assuming the search index honours `hitsPerPage`,
i.e. each page returns at most the requested number of hits) it requests
exactly two discovery pages, each with `pageSize = 100`, and the ids it
fetches are the collected identifiers truncated to the first 150, before
any fetch. -/
theorem extractData_discovery_requests (discover : Nat → Nat → List Nat)
    (fetch : List Nat → List Company) (lr : Session) :
    (∀ t, 1 ≤ t → t ≤ 100 →
        discoveryCalls (extractData discover fetch lr t).2 = [(0, t)])
    ∧ ((∀ p s, (discover p s).length ≤ s) →
        discoveryCalls (extractData discover fetch lr 150).2 = [(0, 100), (1, 100)]
        ∧ (fetchCalls (extractData discover fetch lr 150).2).flatten
            = (discover 0 100 ++ discover 1 100).take 150) := by
  constructor
  · intro t h1 h100
    rw [extractData]
    simp only []
    rw [Nat.min_eq_left h100]
    rw [show (if t = 0 then 0 else (t + t - 1) / t) = 1 by
      rw [if_neg (by omega)]
      exact Nat.div_eq_of_lt_le (by omega) (by omega)]
    rw [show List.range 1 = [0] from rfl]
    rw [discoveryLoop_one_page_ids discover t t (by omega),
      discoveryLoop_one_page_events discover t t (by omega)]
    by_cases hids : (List.take t (discover 0 t)).length = 0
    · rw [if_pos hids]
      rfl
    · rw [if_neg hids]
      simp only []
      rw [discoveryCalls_append, discoveryCalls_fetchLoop]
      rfl
  · intro H
    have h1 : (discover 0 100).length < 150 := by
      have := H 0 100
      omega
    rw [extractData]
    simp only []
    rw [show min 150 100 = 100 from rfl]
    rw [show (if (100 : Nat) = 0 then 0 else (150 + 100 - 1) / 100) = 2 from by norm_num]
    rw [show List.range 2 = [0, 1] from rfl]
    rw [discoveryLoop_two_pages_ids discover 150 100 (by norm_num) h1,
      discoveryLoop_two_pages_events discover 150 100 (by norm_num) h1]
    by_cases hids : (List.take 150 (discover 0 100 ++ discover 1 100)).length = 0
    · rw [if_pos hids]
      have hnil : List.take 150 (discover 0 100 ++ discover 1 100) = [] :=
        List.length_eq_zero.mp hids
      rw [hnil]
      exact ⟨rfl, rfl⟩
    · rw [if_neg hids]
      simp only []
      constructor
      · rw [discoveryCalls_append, discoveryCalls_fetchLoop]
        rfl
      · rw [fetchCalls_append, fetchCalls_fetchLoop, List.drop_zero]
        rw [show fetchCalls [Event.discoveryCall 0 100, Event.delayMs 1000,
            Event.discoveryCall 1 100] = [] from rfl]
        rw [List.nil_append, chunks20_flatten]

/-- Witness for `extractData_discovery_requests`: concrete runs at
`targetCount = 1` and `targetCount = 150`. -/
theorem extractData_discovery_requests_witness :
    discoveryCalls (extractData (fun _ _ => []) (fun _ => [])
        { cookies := "", csrfToken := "" } 1).2 = [(0, 1)]
    ∧ discoveryCalls (extractData (fun _ _ => []) (fun _ => [])
        { cookies := "", csrfToken := "" } 150).2 = [(0, 100), (1, 100)] :=
  ⟨(extractData_discovery_requests (fun _ _ => []) (fun _ => [])
      { cookies := "", csrfToken := "" }).1 1 (by norm_num) (by norm_num),
   ((extractData_discovery_requests (fun _ _ => []) (fun _ => [])
      { cookies := "", csrfToken := "" }).2 (fun p s => by simp)).1⟩

/-- The local `numPages` of `extractData` as a function of the target
count (computed from `hitsPerPage = min maxCompanies 100`). -/
def numPagesOf (t : Nat) : Nat :=
  if min t 100 = 0 then 0 else (t + min t 100 - 1) / min t 100

/-- The local `allCompanyIds` of `extractData` after the discovery loop
and the `slice(0, maxCompanies)` truncation. -/
def collectedIds (d : Nat → Nat → List Nat) (t : Nat) : List Nat :=
  ((discoveryLoop d t (min t 100) (numPagesOf t) (List.range (numPagesOf t)) []).1).take t

/-- Arithmetic fact behind the discovery loop never exiting early: every
page index below `numPages` starts while strictly fewer than
`maxCompanies` ids can have been accumulated. -/
theorem numPages_mul_lt (t : Nat) (ht : 0 < t) :
    ∀ k, k < (t + min t 100 - 1) / min t 100 → k * min t 100 < t := by
  intro k hk
  have hhp : 0 < min t 100 := lt_min ht (by norm_num)
  have hnp : (t + min t 100 - 1) / min t 100 = (t - 1) / min t 100 + 1 := by
    rw [show t + min t 100 - 1 = (t - 1) + min t 100 by omega, Nat.add_div_right _ hhp]
  rw [hnp] at hk
  have hk2 : k ≤ (t - 1) / min t 100 := by omega
  have h1 : k * min t 100 ≤ ((t - 1) / min t 100) * min t 100 :=
    Nat.mul_le_mul_right _ hk2
  have h2 : ((t - 1) / min t 100) * min t 100 ≤ t - 1 := Nat.div_mul_le_self _ _
  omega

/-- When the search index honours `hitsPerPage` and every page index below
`numPages` starts below the target, the discovery loop runs all its pages:
it accumulates every page's ids in order and its trace is the page calls
interspersed with single 1000 ms delays (no delay after the last call). -/
theorem discoveryLoop_run_all (d : Nat → Nat → List Nat) (mc hp np : Nat)
    (H : ∀ p, (d p hp).length ≤ hp)
    (Hk : ∀ k, k < np → k * hp < mc) :
    ∀ (r page : Nat) (acc : List Nat), page + r = np → acc.length ≤ page * hp →
      discoveryLoop d mc hp np (List.range' page r) acc =
        (acc ++ ((List.range' page r).map (fun p => d p hp)).flatten,
         List.intersperse (Event.delayMs 1000)
           ((List.range' page r).map (fun p => Event.discoveryCall p hp))) := by
  intro r
  induction r with
  | zero =>
    intro page acc hpr hacc
    simp [discoveryLoop]
  | succ r2 ih =>
    intro page acc hpr hacc
    rw [List.range'_succ]
    have hcond : acc.length < mc := lt_of_le_of_lt hacc (Hk page (by omega))
    have hacc2 : (acc ++ d page hp).length ≤ (page + 1) * hp := by
      rw [List.length_append]
      have := H page
      calc acc.length + (d page hp).length ≤ page * hp + hp := by omega
        _ = (page + 1) * hp := by ring
    have hrec := ih (page + 1) (acc ++ d page hp) (by omega) hacc2
    simp only [discoveryLoop, if_pos hcond, hrec]
    cases r2 with
    | zero =>
      have hlast : ¬ page < np - 1 := by omega
      simp [hlast]
    | succ r3 =>
      have hmid : page < np - 1 := by omega
      rw [List.range'_succ]
      simp [hmid, List.intersperse_cons_cons, List.append_assoc]

/-- Trace of the fetch loop when a session already exists: the batch fetch
calls interspersed with single 2000 ms delays (no delay after the last
batch, no login). -/
theorem fetchLoop_trace_some (fetch : List Nat → List Company) (lr : Session) (ids : List Nat) :
    ∀ (i : Nat) (s : Session) (acc : List Company),
      (fetchLoop fetch lr ids i (some s) acc).events =
        List.intersperse (Event.delayMs 2000)
          ((chunks20 (ids.drop i)).map Event.fetchCall) := by
  intro i s acc
  by_cases h : i < ids.length
  · rw [fetchLoop_step fetch lr ids i (some s) acc h]
    simp only [fetchCompanyDetails]
    rw [fetchLoop_trace_some fetch lr ids (i + 20) s (acc ++ fetch ((ids.drop i).take 20))]
    have hdrop : ids.drop i ≠ [] := by
      intro hnil
      rw [List.drop_eq_nil_iff] at hnil
      omega
    rw [chunks20_cons _ hdrop, List.drop_drop]
    by_cases hd : i + 20 < ids.length
    · rw [if_pos hd]
      have hdrop2 : ids.drop (i + 20) ≠ [] := by
        intro hnil
        rw [List.drop_eq_nil_iff] at hnil
        omega
      rw [chunks20_cons _ hdrop2]
      simp [List.intersperse_cons_cons]
    · rw [if_neg hd]
      have hdrop2 : ids.drop (i + 20) = [] := List.drop_eq_nil_iff.mpr (by omega)
      rw [hdrop2, chunks20_nil]
      simp
  · rw [fetchLoop_stop fetch lr ids i (some s) acc h]
    have : ids.drop i = [] := List.drop_eq_nil_iff.mpr (by omega)
    rw [this, chunks20_nil]
    rfl
termination_by i => ids.length - i
decreasing_by omega

/-- Trace of the fetch loop entered with no session: one login, then the
batch fetch calls interspersed with single 2000 ms delays. -/
theorem fetchLoop_trace_none (fetch : List Nat → List Company) (lr : Session) (ids : List Nat)
    (i : Nat) (acc : List Company) (h : i < ids.length) :
    (fetchLoop fetch lr ids i none acc).events =
      Event.loginCall ::
        List.intersperse (Event.delayMs 2000)
          ((chunks20 (ids.drop i)).map Event.fetchCall) := by
  rw [fetchLoop_step fetch lr ids i none acc h]
  simp only [fetchCompanyDetails]
  rw [fetchLoop_trace_some fetch lr ids (i + 20) lr (acc ++ fetch ((ids.drop i).take 20))]
  have hdrop : ids.drop i ≠ [] := by
    intro hnil
    rw [List.drop_eq_nil_iff] at hnil
    omega
  rw [chunks20_cons _ hdrop, List.drop_drop]
  by_cases hd : i + 20 < ids.length
  · rw [if_pos hd]
    have hdrop2 : ids.drop (i + 20) ≠ [] := by
      intro hnil
      rw [List.drop_eq_nil_iff] at hnil
      omega
    rw [chunks20_cons _ hdrop2]
    simp [List.intersperse_cons_cons]
  · rw [if_neg hd]
    have hdrop2 : ids.drop (i + 20) = [] := List.drop_eq_nil_iff.mpr (by omega)
    rw [hdrop2, chunks20_nil]
    simp

/-- Claim C7, amended: In every run in which each discovery response
contains at most the requested `hitsPerPage` identifiers (the spec's
Discovery contract), the whole event trace of `extractData` is: the
discovery calls separated by single 1000 ms delays (`List.intersperse` —
so a delay occurs exactly between two consecutive discovery calls and
never after the final one), followed — when any ids were collected — by
the login and the fetch-batch calls separated by single 2000 ms delays
(again exactly between consecutive batches and never after the final
one).  Under this contract the discovery loop provably never stops
early; the original claim's inclusion of early-stop runs is refuted by
`extractData_early_stop_delay_after_final_discovery`: in an early-stop
run (which requires an over-delivering page) the `page < numPages - 1`
delay fires before the early-exit re-check, leaving a 1000 ms delay
after the final discovery call. -/
theorem extractData_delay_discipline (discover : Nat → Nat → List Nat)
    (fetch : List Nat → List Company) (lr : Session) (t : Nat)
    (H : ∀ p s, (discover p s).length ≤ s) :
    (extractData discover fetch lr t).2 =
      List.intersperse (Event.delayMs 1000)
          ((List.range (numPagesOf t)).map (fun p => Event.discoveryCall p (min t 100)))
        ++ if collectedIds discover t = [] then []
           else Event.loginCall ::
             List.intersperse (Event.delayMs 2000)
               ((chunks20 (collectedIds discover t)).map Event.fetchCall) := by
  by_cases ht : t = 0
  · subst ht
    rfl
  · have ht0 : 0 < t := by omega
    have hhp : 0 < min t 100 := lt_min ht0 (by norm_num)
    have hnp : numPagesOf t = (t + min t 100 - 1) / min t 100 := by
      rw [numPagesOf, if_neg (by omega)]
    have hrun := discoveryLoop_run_all discover t (min t 100) (numPagesOf t)
      (fun p => H p (min t 100)) (fun k hk => numPages_mul_lt t ht0 k (hnp ▸ hk))
      (numPagesOf t) 0 [] (by omega) (by simp)
    rw [← List.range_eq_range'] at hrun
    have hids : (discoveryLoop discover t (min t 100) (numPagesOf t)
        (List.range (numPagesOf t)) []).1 =
        ((List.range (numPagesOf t)).map (fun p => discover p (min t 100))).flatten := by
      rw [hrun]
      simp
    have hevs : (discoveryLoop discover t (min t 100) (numPagesOf t)
        (List.range (numPagesOf t)) []).2 =
        List.intersperse (Event.delayMs 1000)
          ((List.range (numPagesOf t)).map (fun p => Event.discoveryCall p (min t 100))) := by
      rw [hrun]
    rw [extractData]
    simp only []
    rw [← numPagesOf]
    rw [hids, hevs, collectedIds, hids]
    set F := ((List.range (numPagesOf t)).map (fun p => discover p (min t 100))).flatten with hF
    by_cases hc : (List.take t F).length = 0
    · rw [if_pos hc, if_pos (List.length_eq_zero.mp hc)]
      simp
    · rw [if_neg hc, if_neg (fun hnil => hc (by rw [hnil]; rfl))]
      have h0 : 0 < (List.take t F).length := by omega
      rw [show ((formatCompanyData (fetchLoop fetch lr (List.take t F) 0 none []).companies,
          List.intersperse (Event.delayMs 1000)
            ((List.range (numPagesOf t)).map (fun p => Event.discoveryCall p (min t 100))) ++
            (fetchLoop fetch lr (List.take t F) 0 none []).events) :
          List OutputCompany × List Event).2 =
          List.intersperse (Event.delayMs 1000)
            ((List.range (numPagesOf t)).map (fun p => Event.discoveryCall p (min t 100))) ++
            (fetchLoop fetch lr (List.take t F) 0 none []).events from rfl]
      rw [fetchLoop_trace_none fetch lr (List.take t F) 0 [] h0, List.drop_zero]

/-- Witness for `extractData_delay_discipline`: a concrete two-page run
(target 150, empty search results) whose trace is the two discovery calls
separated by a single 1000 ms delay. -/
theorem extractData_delay_discipline_witness :
    (extractData (fun _ _ => []) (fun _ => []) { cookies := "", csrfToken := "" } 150).2 =
      List.intersperse (Event.delayMs 1000)
          ((List.range (numPagesOf 150)).map
            (fun p => Event.discoveryCall p (min 150 100)))
        ++ if collectedIds (fun _ _ => []) 150 = [] then []
           else Event.loginCall ::
             List.intersperse (Event.delayMs 2000)
               ((chunks20 (collectedIds (fun _ _ => []) 150)).map Event.fetchCall) :=
  extractData_delay_discipline (fun _ _ => []) (fun _ => [])
    { cookies := "", csrfToken := "" } 150 (fun p s => by simp)

/-- Claim C7, counterexample: in a run where discovery stops early because
the running identifier count reached the target (page 0 over-delivers 101
ids for `targetCount = 101`), a 1000 ms delay *does* occur after the
final discovery call: the whole run performs exactly one discovery call,
`(0, 100)`, and the trace begins `[discoveryCall 0 100, delayMs 1000]` —
the delay immediately follows the final discovery call, refuting the
original claim. -/
theorem extractData_early_stop_delay_after_final_discovery :
    discoveryCalls (extractData (fun _ _ => List.range 101) (fun _ => [])
        { cookies := "", csrfToken := "" } 101).2 = [(0, 100)]
    ∧ (extractData (fun _ _ => List.range 101) (fun _ => [])
        { cookies := "", csrfToken := "" } 101).2.take 2
      = [Event.discoveryCall 0 100, Event.delayMs 1000] := by
  have h0 : (0 : Nat) < 101 := by norm_num
  have h1 : ¬ ((fun (_ _ : Nat) => List.range 101) 0 100).length < 101 := by simp
  rw [extractData]
  simp only []
  rw [show min 101 100 = 100 from rfl]
  rw [show (if (100 : Nat) = 0 then 0 else (101 + 100 - 1) / 100) = 2 from by norm_num]
  rw [show List.range 2 = [0, 1] from rfl]
  rw [discoveryLoop_early_stop_ids (fun _ _ => List.range 101) 101 100 h0 h1,
    discoveryLoop_early_stop_events (fun _ _ => List.range 101) 101 100 h0 h1]
  rw [if_neg (by simp : ¬ (List.take 101 (List.range 101)).length = 0)]
  simp only []
  constructor
  · rw [discoveryCalls_append, discoveryCalls_fetchLoop]
    rfl
  · rfl

/-- Witness for `login_missing_csrf`: a login page without any CSRF token. -/
theorem login_missing_csrf_witness :
    (login { loginPageBody := "<html><body>no token here</body></html>",
             loginPageCookies := ["a=1; Path=/"], signInStatus := 200,
             signInCookies := [], waasBody := "", waasCookies := [] }).1
      = Except.error AuthError.missingCsrfToken
    ∧ LoginEvent.postSignIn
        ∉ (login { loginPageBody := "<html><body>no token here</body></html>",
                   loginPageCookies := ["a=1; Path=/"], signInStatus := 200,
                   signInCookies := [], waasBody := "", waasCookies := [] }).2 :=
  login_missing_csrf
    { loginPageBody := "<html><body>no token here</body></html>",
      loginPageCookies := ["a=1; Path=/"], signInStatus := 200,
      signInCookies := [], waasBody := "", waasCookies := [] }
    (by decide)

end YC2Data
